import Mathlib

/-!
Verification of the apa102-spi LED driver crate: a shallow embedding of its
pixel-encoding math (scalers, brightness bitshifters, the pseudo-13-bit gamma
algorithm) and of its frame writers (blocking, asynchronous, and the
length-derived-end-frame variant), together with theorems settling the
specification claims.

Machine integers are modelled as Nat with explicit reduction modulo 2^8 or
2^16 exactly where the Rust code can wrap; every definition follows the
corresponding Rust function statement by statement.
-/

namespace Apa102Spi

/-- Device-native pixel from pixel.rs: 8-bit red, green, blue plus a
brightness byte (5 significant bits). -/
structure Apa102Pixel where
  red : Nat
  green : Nat
  blue : Nat
  brightness : Nat
deriving DecidableEq, Repr

/-- Eight-bit RGB color (smart_leds_trait::RGB8). -/
structure RGB8 where
  r : Nat
  g : Nat
  b : Nat
deriving DecidableEq, Repr

/-- Sixteen-bit RGB color (smart_leds_trait::RGB16). -/
structure RGB16 where
  r : Nat
  g : Nat
  b : Nat
deriving DecidableEq, Repr

/-- Channel transmission order from lib.rs. -/
inductive PixelOrder where
  | RGB
  | RBG
  | GRB
  | GBR
  | BRG
  | BGR
deriving DecidableEq, Repr

/-- math.rs scale16by8: scale a 16-bit value by an 8-bit fraction.
The Rust body is: if scale == 0 return 0; ((i as u32 * (1 + scale as u32)) >> 8) as u16. -/
def scale16by8 (i scale : Nat) : Nat :=
  if scale = 0 then 0
  else (((i * (1 + scale)) % 2 ^ 32) >>> 8) % 2 ^ 16

/-- math.rs map16_to_8: if x >= 0xff00 return 0xff; ((x + 128) >> 8) as u8. -/
def map16_to_8 (x : Nat) : Nat :=
  if x ≥ 0xff00 then 0xff
  else ((x + 128) >>> 8) % 2 ^ 8

/-- Loop body of bitshift.rs brightness_bitshifter8, with the remaining
iteration budget (max_shifts - shifts) as fuel. Returns the final
(src, dst, shifts performed). -/
def bs8go : Nat → Nat → Nat → Nat × Nat × Nat
  | 0, src, dst => (src, dst, 0)
  | fuel + 1, src, dst =>
    if src > 1 then
      if dst &&& 0b10000000 > 0 then (src, dst, 0)
      else
        let r := bs8go fuel (src >>> 1) ((dst <<< 1) % 2 ^ 8)
        (r.1, r.2.1, r.2.2 + 1)
    else (src, dst, 0)

/-- bitshift.rs brightness_bitshifter8: halve src and double dst while
src > 1, dst's high bit is clear and fewer than max_shifts shifts happened.
Returns the final (src, dst, shifts). -/
def brightness_bitshifter8 (src dst max_shifts : Nat) : Nat × Nat × Nat :=
  if dst = 0 ∨ src = 0 then (src, dst, 0)
  else bs8go max_shifts src dst

/-- Overflow-mask loop of bitshift.rs brightness_bitshifter16: starting from
0b1000000000000000 the mask absorbs one more high bit per iteration. -/
def maskIter : Nat → Nat → Nat
  | 0, mask => mask
  | n + 1, mask => maskIter n ((mask >>> 1) ||| 0b1000000000000000)

/-- Loop body of bitshift.rs brightness_bitshifter16 with fuel
max_shifts - shifts. Returns the final (src, dst, shifts). -/
def bs16go (steps mask : Nat) : Nat → Nat → Nat → Nat × Nat × Nat
  | 0, src, dst => (src, dst, 0)
  | fuel + 1, src, dst =>
    if src &&& 0x1 > 0 then (src, dst, 0)
    else if dst &&& mask > 0 then (src, dst, 0)
    else
      let r := bs16go steps mask fuel (src >>> 1) ((dst <<< steps) % 2 ^ 16)
      (r.1, r.2.1, r.2.2 + 1)

/-- bitshift.rs brightness_bitshifter16: halve src and shift dst left by
steps bits while src stays even, dst stays clear of the overflow mask and
fewer than max_shifts shifts happened. Returns the final (src, dst, shifts). -/
def brightness_bitshifter16 (src dst max_shifts steps : Nat) : Nat × Nat × Nat :=
  if dst = 0 ∨ src = 0 then (src, dst, 0)
  else bs16go steps (maskIter (steps - 1) 0b1000000000000000) max_shifts src dst

/-- Gamma correction lookup table from pseudo13.rs (power 2.8), 256 entries
mapping an 8-bit channel value to a 16-bit gamma-expanded value. -/
def GAMMA_TABLE : List Nat := [
  0, 0, 0, 1, 1, 2, 4, 6, 8, 11, 14, 18, 23, 29, 35, 41,
  49, 57, 67, 77, 88, 99, 112, 126, 141, 156, 173, 191, 210, 230, 251, 274,
  297, 322, 348, 375, 404, 433, 464, 497, 531, 566, 602, 640, 680, 721, 763, 807,
  853, 899, 948, 998, 1050, 1103, 1158, 1215, 1273, 1333, 1394, 1458, 1523, 1590, 1658, 1729,
  1801, 1875, 1951, 2029, 2109, 2190, 2274, 2359, 2446, 2536, 2627, 2720, 2816, 2913, 3012, 3114,
  3217, 3323, 3431, 3541, 3653, 3767, 3883, 4001, 4122, 4245, 4370, 4498, 4627, 4759, 4893, 5030,
  5169, 5310, 5453, 5599, 5747, 5898, 6051, 6206, 6364, 6525, 6688, 6853, 7021, 7191, 7364, 7539,
  7717, 7897, 8080, 8266, 8454, 8645, 8838, 9034, 9233, 9434, 9638, 9845, 10055, 10267, 10482, 10699,
  10920, 11143, 11369, 11598, 11829, 12064, 12301, 12541, 12784, 13030, 13279, 13530, 13785, 14042, 14303, 14566,
  14832, 15102, 15374, 15649, 15928, 16209, 16493, 16781, 17071, 17365, 17661, 17961, 18264, 18570, 18879, 19191,
  19507, 19825, 20147, 20472, 20800, 21131, 21466, 21804, 22145, 22489, 22837, 23188, 23542, 23899, 24260, 24625,
  24992, 25363, 25737, 26115, 26496, 26880, 27268, 27659, 28054, 28452, 28854, 29259, 29667, 30079, 30495, 30914,
  31337, 31763, 32192, 32626, 33062, 33503, 33947, 34394, 34846, 35300, 35759, 36221, 36687, 37156, 37629, 38106,
  38586, 39071, 39558, 40050, 40545, 41045, 41547, 42054, 42565, 43079, 43597, 44119, 44644, 45174, 45707, 46245,
  46786, 47331, 47880, 48432, 48989, 49550, 50114, 50683, 51255, 51832, 52412, 52996, 53585, 54177, 54773, 55374,
  55978, 56587, 57199, 57816, 58436, 59061, 59690, 60323, 60960, 61601, 62246, 62896, 63549, 64207, 64869, 65535]

/-- pseudo13.rs five_bit_bitshift: FastLED pseudo-13-bit redistribution of an
8-bit brightness and a 16-bit color into 5-bit hardware brightness plus 8-bit
color, following the Rust statement by statement. -/
def five_bit_bitshift (in_color : RGB16) (brightness : Nat) : Apa102Pixel :=
  if brightness = 0 then
    { red := 0, green := 0, blue := 0, brightness := 0 }
  else if in_color.r = 0 ∧ in_color.g = 0 ∧ in_color.b = 0 then
    { red := 0, green := 0, blue := 0,
      brightness := if brightness ≤ 0b00011111 then brightness else 0b00011111 }
  else
    let s1 := brightness_bitshifter8 0b00010000 brightness 4
    let v5a := s1.1
    let brightness1 := s1.2.1
    let max_component := max (max in_color.r in_color.g) in_color.b
    let s2 := brightness_bitshifter16 v5a max_component 4 2
    let v5b := s2.1
    let shifts := s2.2.2
    let r1 := if shifts > 0 then (in_color.r <<< shifts) % 2 ^ 16 else in_color.r
    let g1 := if shifts > 0 then (in_color.g <<< shifts) % 2 ^ 16 else in_color.g
    let b1 := if shifts > 0 then (in_color.b <<< shifts) % 2 ^ 16 else in_color.b
    let r2 := if brightness1 ≠ 255 then scale16by8 r1 brightness1 else r1
    let g2 := if brightness1 ≠ 255 then scale16by8 g1 brightness1 else g1
    let b2 := if brightness1 ≠ 255 then scale16by8 b1 brightness1 else b1
    let v5c := if v5b > 1 then v5b ||| (v5b - 1) else v5b
    { red := map16_to_8 r2, green := map16_to_8 g2, blue := map16_to_8 b2,
      brightness := v5c }

/-- pseudo13.rs five_bit_hd_gamma_bitshift: gamma-expand the 8-bit channels,
optionally apply per-channel color correction, then delegate to
five_bit_bitshift. -/
def five_bit_hd_gamma_bitshift (colors : RGB8) (brightness : Nat)
    (color_correction : Option RGB8) : Apa102Pixel :=
  if brightness = 0 then
    { red := 0, green := 0, blue := 0, brightness := 0 }
  else
    let rgb16 : RGB16 :=
      { r := GAMMA_TABLE.getD colors.r 0,
        g := GAMMA_TABLE.getD colors.g 0,
        b := GAMMA_TABLE.getD colors.b 0 }
    let rgb16c : RGB16 :=
      match color_correction with
      | some cc =>
        { r := if cc.r ≠ 255 then scale16by8 rgb16.r cc.r else rgb16.r,
          g := if cc.g ≠ 255 then scale16by8 rgb16.g cc.g else rgb16.g,
          b := if cc.b ≠ 255 then scale16by8 rgb16.b cc.b else rgb16.b }
      | none => rgb16
    five_bit_bitshift rgb16c brightness

/-- Transport model: the SPI bus as a capability that records every write
call and answers the k-th call (0-based) from an oracle; answer none means
the call succeeds, some e means it fails with transport error e. -/
structure SpiState (ε : Type) where
  oracle : Nat → Option ε
  calls : List (List Nat)

/-- One SPI write call: log the byte chunk and return the oracle's verdict
for this call position. -/
def spiWrite {ε : Type} (chunk : List Nat) (s : SpiState ε) :
    Except ε Unit × SpiState ε :=
  match s.oracle s.calls.length with
  | none => (Except.ok (), { s with calls := s.calls ++ [chunk] })
  | some e => (Except.error e, { s with calls := s.calls ++ [chunk] })

/-- Configuration of the blocking writer from lib.rs (the owned SPI bus is
modelled separately as the SpiState). -/
structure Apa102 where
  end_frame_length : Nat
  invert_end_frame : Bool
  pixel_order : PixelOrder

/-- Configuration of the asynchronous writer from asynch.rs. -/
structure Apa102Async where
  end_frame_length : Nat
  invert_end_frame : Bool
  pixel_order : PixelOrder

/-- Configuration of the bisync writer from writer.rs, which derives the end
frame length from the pixel count instead of storing it. -/
structure Apa102Writer where
  invert_end_frame : Bool
  pixel_order : PixelOrder

/-- The 4-byte chunk the lib.rs write match emits for one pixel: the marker
byte 0b11100000 or-ed with the brightness byte, then the color channels in
the configured order. -/
def libPixelChunk (order : PixelOrder) (p : Apa102Pixel) : List Nat :=
  match order with
  | PixelOrder.RGB => [0b11100000 ||| p.brightness, p.red, p.green, p.blue]
  | PixelOrder.RBG => [0b11100000 ||| p.brightness, p.red, p.blue, p.green]
  | PixelOrder.GRB => [0b11100000 ||| p.brightness, p.green, p.red, p.blue]
  | PixelOrder.GBR => [0b11100000 ||| p.brightness, p.green, p.blue, p.red]
  | PixelOrder.BRG => [0b11100000 ||| p.brightness, p.blue, p.red, p.green]
  | PixelOrder.BGR => [0b11100000 ||| p.brightness, p.blue, p.green, p.red]

/-- Pixel loop of the lib.rs write implementation: one SPI write per pixel,
aborting on the first transport error. -/
def libWritePixels {ε : Type} (order : PixelOrder) :
    List Apa102Pixel → SpiState ε → Except ε Unit × SpiState ε
  | [], s => (Except.ok (), s)
  | p :: ps, s =>
    match spiWrite (libPixelChunk order p) s with
    | (Except.ok _, s1) => libWritePixels order ps s1
    | (Except.error e, s1) => (Except.error e, s1)

/-- End-frame loop of lib.rs: end_frame_length single-byte writes, 0xFF when
invert_end_frame is false and 0x00 when it is true. -/
def libWriteEndFrame {ε : Type} (invert : Bool) :
    Nat → SpiState ε → Except ε Unit × SpiState ε
  | 0, s => (Except.ok (), s)
  | n + 1, s =>
    match spiWrite (match invert with | false => [0xFF] | true => [0x00]) s with
    | (Except.ok _, s1) => libWriteEndFrame invert n s1
    | (Except.error e, s1) => (Except.error e, s1)

/-- The SmartLedsWrite implementation of lib.rs: start frame, one 4-byte
frame per pixel, then the fixed-length end frame, propagating the first
transport error. -/
def apa102Write {ε : Type} (cfg : Apa102) (ps : List Apa102Pixel)
    (s : SpiState ε) : Except ε Unit × SpiState ε :=
  match spiWrite [0x00, 0x00, 0x00, 0x00] s with
  | (Except.ok _, s1) =>
    match libWritePixels cfg.pixel_order ps s1 with
    | (Except.ok _, s2) =>
      libWriteEndFrame cfg.invert_end_frame cfg.end_frame_length s2
    | (Except.error e, s2) => (Except.error e, s2)
  | (Except.error e, s1) => (Except.error e, s1)

/-- The 4-byte chunk the asynch.rs write match emits for one pixel. -/
def asyncPixelChunk (order : PixelOrder) (p : Apa102Pixel) : List Nat :=
  match order with
  | PixelOrder.RGB => [0b11100000 ||| p.brightness, p.red, p.green, p.blue]
  | PixelOrder.RBG => [0b11100000 ||| p.brightness, p.red, p.blue, p.green]
  | PixelOrder.GRB => [0b11100000 ||| p.brightness, p.green, p.red, p.blue]
  | PixelOrder.GBR => [0b11100000 ||| p.brightness, p.green, p.blue, p.red]
  | PixelOrder.BRG => [0b11100000 ||| p.brightness, p.blue, p.red, p.green]
  | PixelOrder.BGR => [0b11100000 ||| p.brightness, p.blue, p.green, p.red]

/-- Pixel loop of the asynch.rs write implementation. -/
def asyncWritePixels {ε : Type} (order : PixelOrder) :
    List Apa102Pixel → SpiState ε → Except ε Unit × SpiState ε
  | [], s => (Except.ok (), s)
  | p :: ps, s =>
    match spiWrite (asyncPixelChunk order p) s with
    | (Except.ok _, s1) => asyncWritePixels order ps s1
    | (Except.error e, s1) => (Except.error e, s1)

/-- End-frame loop of asynch.rs. -/
def asyncWriteEndFrame {ε : Type} (invert : Bool) :
    Nat → SpiState ε → Except ε Unit × SpiState ε
  | 0, s => (Except.ok (), s)
  | n + 1, s =>
    match spiWrite (match invert with | false => [0xFF] | true => [0x00]) s with
    | (Except.ok _, s1) => asyncWriteEndFrame invert n s1
    | (Except.error e, s1) => (Except.error e, s1)

/-- The SmartLedsWriteAsync implementation of asynch.rs: suspension points
erased, the sequence of transport calls and the returned result kept. -/
def apa102AsyncWrite {ε : Type} (cfg : Apa102Async) (ps : List Apa102Pixel)
    (s : SpiState ε) : Except ε Unit × SpiState ε :=
  match spiWrite [0x00, 0x00, 0x00, 0x00] s with
  | (Except.ok _, s1) =>
    match asyncWritePixels cfg.pixel_order ps s1 with
    | (Except.ok _, s2) =>
      asyncWriteEndFrame cfg.invert_end_frame cfg.end_frame_length s2
    | (Except.error e, s2) => (Except.error e, s2)
  | (Except.error e, s1) => (Except.error e, s1)

/-- The 4-byte chunk the writer.rs write match emits for one pixel. -/
def writerPixelChunk (order : PixelOrder) (p : Apa102Pixel) : List Nat :=
  match order with
  | PixelOrder.RGB => [0b11100000 ||| p.brightness, p.red, p.green, p.blue]
  | PixelOrder.RBG => [0b11100000 ||| p.brightness, p.red, p.blue, p.green]
  | PixelOrder.GRB => [0b11100000 ||| p.brightness, p.green, p.red, p.blue]
  | PixelOrder.GBR => [0b11100000 ||| p.brightness, p.green, p.blue, p.red]
  | PixelOrder.BRG => [0b11100000 ||| p.brightness, p.blue, p.red, p.green]
  | PixelOrder.BGR => [0b11100000 ||| p.brightness, p.blue, p.green, p.red]

/-- Pixel loop of the writer.rs write implementation. -/
def writerWritePixels {ε : Type} (order : PixelOrder) :
    List Apa102Pixel → SpiState ε → Except ε Unit × SpiState ε
  | [], s => (Except.ok (), s)
  | p :: ps, s =>
    match spiWrite (writerPixelChunk order p) s with
    | (Except.ok _, s1) => writerWritePixels order ps s1
    | (Except.error e, s1) => (Except.error e, s1)

/-- End-frame loop of writer.rs: num_end_frames single-byte writes. -/
def writerWriteEndFrame {ε : Type} (invert : Bool) :
    Nat → SpiState ε → Except ε Unit × SpiState ε
  | 0, s => (Except.ok (), s)
  | n + 1, s =>
    match spiWrite (match invert with | false => [0xFF] | true => [0x00]) s with
    | (Except.ok _, s1) => writerWriteEndFrame invert n s1
    | (Except.error e, s1) => (Except.error e, s1)

/-- The SmartLedsWrite implementation of writer.rs: start frame, pixel
frames, the extra SK9822 4-byte reset frame, then iterator.len().div_ceil(16)
end-frame bytes. -/
def apa102WriterWrite {ε : Type} (cfg : Apa102Writer) (ps : List Apa102Pixel)
    (s : SpiState ε) : Except ε Unit × SpiState ε :=
  match spiWrite [0x00, 0x00, 0x00, 0x00] s with
  | (Except.ok _, s1) =>
    let num_end_frames := (ps.length + 16 - 1) / 16
    match writerWritePixels cfg.pixel_order ps s1 with
    | (Except.ok _, s2) =>
      match spiWrite [0x00, 0x00, 0x00, 0x00] s2 with
      | (Except.ok _, s3) => writerWriteEndFrame cfg.invert_end_frame num_end_frames s3
      | (Except.error e, s3) => (Except.error e, s3)
    | (Except.error e, s2) => (Except.error e, s2)
  | (Except.error e, s1) => (Except.error e, s1)

/-- Straight-line transport runner: issue a fixed list of chunks in order,
stopping at the first failing call. All three writers reduce to this. -/
def runChunks {ε : Type} : List (List Nat) → SpiState ε → Except ε Unit × SpiState ε
  | [], s => (Except.ok (), s)
  | c :: cs, s =>
    match spiWrite c s with
    | (Except.ok _, s1) => runChunks cs s1
    | (Except.error e, s1) => (Except.error e, s1)

/-- The full chunk sequence the lib.rs writer attempts on an error-free
transport: start frame, pixel frames, fixed-length end frame. -/
def libPlannedChunks (cfg : Apa102) (ps : List Apa102Pixel) : List (List Nat) :=
  [0x00, 0x00, 0x00, 0x00] :: (ps.map (libPixelChunk cfg.pixel_order)
    ++ List.replicate cfg.end_frame_length
        (match cfg.invert_end_frame with | false => [0xFF] | true => [0x00]))

/-- The full chunk sequence the writer.rs writer attempts on an error-free
transport: start frame, pixel frames, the extra reset frame, then
length-derived end frame bytes. -/
def writerPlannedChunks (cfg : Apa102Writer) (ps : List Apa102Pixel) : List (List Nat) :=
  [0x00, 0x00, 0x00, 0x00] :: (ps.map (writerPixelChunk cfg.pixel_order)
    ++ [0x00, 0x00, 0x00, 0x00]
    :: List.replicate ((ps.length + 16 - 1) / 16)
        (match cfg.invert_end_frame with | false => [0xFF] | true => [0x00]))

/-- An error-free transport with an empty call log (the transport error type
is taken to be Unit). -/
def allOk : SpiState Unit :=
  { oracle := fun _ => none, calls := [] }

/-- The spec's reading of each ChannelOrder name: the three color channel
bytes in exactly the sequence the name spells out. -/
def channelBytesNamed (order : PixelOrder) (p : Apa102Pixel) : List Nat :=
  match order with
  | PixelOrder.RGB => [p.red, p.green, p.blue]
  | PixelOrder.RBG => [p.red, p.blue, p.green]
  | PixelOrder.GRB => [p.green, p.red, p.blue]
  | PixelOrder.GBR => [p.green, p.blue, p.red]
  | PixelOrder.BRG => [p.blue, p.red, p.green]
  | PixelOrder.BGR => [p.blue, p.green, p.red]

theorem libWritePixels_eq_runChunks {ε : Type} (o : PixelOrder)
    (ps : List Apa102Pixel) (s : SpiState ε) :
    libWritePixels o ps s = runChunks (ps.map (libPixelChunk o)) s := by
  induction ps generalizing s with
  | nil => rfl
  | cons p ps ih =>
    simp only [libWritePixels, List.map_cons, runChunks]
    rcases h : spiWrite (libPixelChunk o p) s with ⟨r, s1⟩
    cases r <;> simp [h, ih]

theorem libWriteEndFrame_eq_runChunks {ε : Type} (inv : Bool) (n : Nat) (s : SpiState ε) :
    libWriteEndFrame inv n s =
      runChunks (List.replicate n (match inv with | false => [0xFF] | true => [0x00])) s := by
  induction n generalizing s with
  | zero => rfl
  | succ n ih =>
    simp only [libWriteEndFrame, List.replicate_succ, runChunks]
    rcases h : spiWrite (match inv with | false => [0xFF] | true => [0x00]) s with ⟨r, s1⟩
    cases r <;> simp [h, ih]

theorem runChunks_append {ε : Type} (a b : List (List Nat)) (s : SpiState ε) :
    runChunks (a ++ b) s =
      match runChunks a s with
      | (Except.ok _, s1) => runChunks b s1
      | (Except.error e, s1) => (Except.error e, s1) := by
  induction a generalizing s with
  | nil => rfl
  | cons c cs ih =>
    simp only [List.cons_append, runChunks]
    rcases h : spiWrite c s with ⟨r, s1⟩
    cases r <;> simp [h, ih]

theorem apa102Write_eq_runChunks {ε : Type} (cfg : Apa102)
    (ps : List Apa102Pixel) (s : SpiState ε) :
    apa102Write cfg ps s = runChunks (libPlannedChunks cfg ps) s := by
  simp only [apa102Write, libPlannedChunks, runChunks]
  rcases h : spiWrite [0x00, 0x00, 0x00, 0x00] s with ⟨r, s1⟩
  cases r with
  | error e => simp [h]
  | ok u =>
    simp only [h, runChunks_append, libWritePixels_eq_runChunks,
      libWriteEndFrame_eq_runChunks]

theorem writerWritePixels_eq_runChunks {ε : Type} (o : PixelOrder)
    (ps : List Apa102Pixel) (s : SpiState ε) :
    writerWritePixels o ps s = runChunks (ps.map (writerPixelChunk o)) s := by
  induction ps generalizing s with
  | nil => rfl
  | cons p ps ih =>
    simp only [writerWritePixels, List.map_cons, runChunks]
    rcases h : spiWrite (writerPixelChunk o p) s with ⟨r, s1⟩
    cases r <;> simp [h, ih]

theorem writerWriteEndFrame_eq_runChunks {ε : Type} (inv : Bool) (n : Nat) (s : SpiState ε) :
    writerWriteEndFrame inv n s =
      runChunks (List.replicate n (match inv with | false => [0xFF] | true => [0x00])) s := by
  induction n generalizing s with
  | zero => rfl
  | succ n ih =>
    simp only [writerWriteEndFrame, List.replicate_succ, runChunks]
    rcases h : spiWrite (match inv with | false => [0xFF] | true => [0x00]) s with ⟨r, s1⟩
    cases r <;> simp [h, ih]

theorem apa102WriterWrite_eq_runChunks {ε : Type} (cfg : Apa102Writer)
    (ps : List Apa102Pixel) (s : SpiState ε) :
    apa102WriterWrite cfg ps s = runChunks (writerPlannedChunks cfg ps) s := by
  simp only [apa102WriterWrite, writerPlannedChunks, runChunks]
  rcases h : spiWrite [0x00, 0x00, 0x00, 0x00] s with ⟨r, s1⟩
  cases r with
  | error e => simp [h]
  | ok u =>
    simp only [h, runChunks_append, writerWritePixels_eq_runChunks,
      writerWriteEndFrame_eq_runChunks]
    rcases h2 : runChunks (ps.map (writerPixelChunk cfg.pixel_order)) s1 with ⟨r2, s2⟩
    cases r2 with
    | error e => simp [h2]
    | ok u2 =>
      simp only [h2, runChunks]

theorem runChunks_ok {ε : Type} (cs : List (List Nat)) (s : SpiState ε)
    (h : ∀ i, i < cs.length → s.oracle (s.calls.length + i) = none) :
    runChunks cs s = (Except.ok (), { s with calls := s.calls ++ cs }) := by
  induction cs generalizing s with
  | nil => simp [runChunks]
  | cons c cs ih =>
    have h0 : s.oracle s.calls.length = none := by simpa using h 0 (by simp)
    simp only [runChunks, spiWrite, h0]
    have hrec := ih { s with calls := s.calls ++ [c] } (by
      intro i hi
      have := h (i + 1) (by simp; omega)
      simp only [List.length_append, List.length_cons, List.length_nil] at this ⊢
      have harith : s.calls.length + 1 + i = s.calls.length + (i + 1) := by omega
      rw [harith]
      exact this)
    simpa [List.append_assoc] using hrec

theorem runChunks_error {ε : Type} (cs : List (List Nat)) (s : SpiState ε)
    (k : Nat) (e : ε) (hk : k < cs.length)
    (hpre : ∀ i, i < k → s.oracle (s.calls.length + i) = none)
    (hke : s.oracle (s.calls.length + k) = some e) :
    runChunks cs s = (Except.error e, { s with calls := s.calls ++ cs.take (k + 1) }) := by
  induction cs generalizing s k with
  | nil => simp at hk
  | cons c cs ih =>
    cases k with
    | zero =>
      have h0 : s.oracle s.calls.length = some e := by simpa using hke
      simp [runChunks, spiWrite, h0]
    | succ k =>
      have h0 : s.oracle s.calls.length = none := by
        simpa using hpre 0 (Nat.succ_pos k)
      simp only [runChunks, spiWrite, h0]
      have hrec := ih { s with calls := s.calls ++ [c] } k
        (by simpa using Nat.lt_of_succ_lt_succ hk)
        (by
          intro i hi
          have := hpre (i + 1) (by omega)
          simp only [List.length_append, List.length_cons, List.length_nil] at this ⊢
          have harith : s.calls.length + 1 + i = s.calls.length + (i + 1) := by omega
          rw [harith]
          exact this)
        (by
          simp only [List.length_append, List.length_cons, List.length_nil]
          have harith : s.calls.length + 1 + k = s.calls.length + (k + 1) := by omega
          rw [harith]
          exact hke)
      simpa [List.append_assoc, List.take_succ_cons] using hrec

theorem testBit_false_of_and_eq_zero {x m : Nat} (n : Nat) (h : x &&& m = 0)
    (hm : m.testBit n = true) : x.testBit n = false := by
  have hx := congrArg (fun y => Nat.testBit y n) h
  simp only [Nat.testBit_and, Nat.zero_testBit, hm, Bool.and_true] at hx
  exact hx

theorem div_mod_two_eq_zero_of_testBit_false {x n : Nat}
    (h : x.testBit n = false) : x / 2 ^ n % 2 = 0 := by
  rw [Nat.testBit_to_div_mod] at h
  simp only [decide_eq_false_iff_not] at h
  omega

theorem lt_of_and_128_eq_zero {d : Nat} (hd : d < 256) (h : d &&& 128 = 0) :
    d < 128 := by
  have hb := div_mod_two_eq_zero_of_testBit_false
    (testBit_false_of_and_eq_zero 7 h (by decide))
  have h7 : (2 : Nat) ^ 7 = 128 := by norm_num
  rw [h7] at hb
  omega

theorem lt_of_and_32768_eq_zero {d : Nat} (hd : d < 65536) (h : d &&& 32768 = 0) :
    d < 32768 := by
  have hb := div_mod_two_eq_zero_of_testBit_false
    (testBit_false_of_and_eq_zero 15 h (by decide))
  have h15 : (2 : Nat) ^ 15 = 32768 := by norm_num
  rw [h15] at hb
  omega

theorem lt_of_and_49152_eq_zero {d : Nat} (hd : d < 65536) (h : d &&& 49152 = 0) :
    d < 16384 := by
  have hb14 := div_mod_two_eq_zero_of_testBit_false
    (testBit_false_of_and_eq_zero 14 h (by decide))
  have hb15 := div_mod_two_eq_zero_of_testBit_false
    (testBit_false_of_and_eq_zero 15 h (by decide))
  have h14 : (2 : Nat) ^ 14 = 16384 := by norm_num
  have h15 : (2 : Nat) ^ 15 = 32768 := by norm_num
  rw [h14] at hb14
  rw [h15] at hb15
  omega

theorem bs8go_pow2_prod : ∀ (fuel k d : Nat), d < 256 →
    (bs8go fuel (2 ^ k) d).1 * (bs8go fuel (2 ^ k) d).2.1 = 2 ^ k * d ∧
    (bs8go fuel (2 ^ k) d).2.1 < 256 := by
  intro fuel
  induction fuel with
  | zero => exact fun k d hd => ⟨rfl, hd⟩
  | succ fuel ih =>
    intro k d hd
    by_cases h1 : (2 : Nat) ^ k > 1
    · by_cases h2 : d &&& 0b10000000 > 0
      · simp only [bs8go, if_pos h1, if_pos h2]
        exact ⟨trivial, hd⟩
      · have hk : 1 ≤ k := by
          by_contra hk0
          have : k = 0 := by omega
          subst this
          simp at h1
        have hd128 : d < 128 := lt_of_and_128_eq_zero hd (by omega)
        have hsrc : (2 ^ k) >>> 1 = 2 ^ (k - 1) := by
          rw [Nat.shiftRight_eq_div_pow, pow_one, Nat.pow_div hk (by norm_num)]
        have hdst : (d <<< 1) % 2 ^ 8 = 2 * d := by
          rw [Nat.shiftLeft_eq, pow_one]
          have : d * 2 < 2 ^ 8 := by norm_num; omega
          rw [Nat.mod_eq_of_lt this]
          omega
        simp only [bs8go, if_pos h1, if_neg h2, hsrc, hdst]
        obtain ⟨hprod, hlt⟩ := ih (k - 1) (2 * d) (by omega)
        refine ⟨?_, hlt⟩
        have hpow : (2 : Nat) ^ k = 2 * 2 ^ (k - 1) := by
          have hk1 : k - 1 + 1 = k := by omega
          calc (2 : Nat) ^ k = 2 ^ (k - 1 + 1) := by rw [hk1]
          _ = 2 ^ (k - 1) * 2 := pow_succ 2 (k - 1)
          _ = 2 * 2 ^ (k - 1) := by ring
        rw [hprod, hpow]
        ring
    · simp only [bs8go, if_neg h1]
      exact ⟨trivial, hd⟩

theorem brightness_bitshifter8_pow2_prod (k d m : Nat) (hd : d < 256) :
    (brightness_bitshifter8 (2 ^ k) d m).1 * (brightness_bitshifter8 (2 ^ k) d m).2.1
      = 2 ^ k * d := by
  unfold brightness_bitshifter8
  by_cases hz : d = 0 ∨ (2 : Nat) ^ k = 0
  · rcases hz with hz | hz
    · subst hz
      simp
    · have hp : 0 < (2 : Nat) ^ k := pow_pos (by norm_num) k
      omega
  · simp only [if_neg hz]
    exact (bs8go_pow2_prod m k d hd).1

theorem bs16go_prod1 : ∀ (fuel s d : Nat), d < 65536 →
    (bs16go 1 32768 fuel s d).1 * (bs16go 1 32768 fuel s d).2.1 = s * d ∧
    (bs16go 1 32768 fuel s d).2.1 < 65536 := by
  intro fuel
  induction fuel with
  | zero => exact fun s d hd => ⟨rfl, hd⟩
  | succ fuel ih =>
    intro s d hd
    by_cases h1 : s &&& 0x1 > 0
    · simp only [bs16go, if_pos h1]
      exact ⟨trivial, hd⟩
    · by_cases h2 : d &&& 32768 > 0
      · simp only [bs16go, if_neg h1, if_pos h2]
        exact ⟨trivial, hd⟩
      · have hs2 : s % 2 = 0 := by
          rw [← Nat.and_one_is_mod]
          omega
        have hdlt : d < 32768 := lt_of_and_32768_eq_zero hd (by omega)
        have hsrc : s >>> 1 = s / 2 := by
          rw [Nat.shiftRight_eq_div_pow, pow_one]
        have hdst : (d <<< 1) % 2 ^ 16 = 2 * d := by
          rw [Nat.shiftLeft_eq, pow_one]
          have : d * 2 < 2 ^ 16 := by norm_num; omega
          rw [Nat.mod_eq_of_lt this]
          omega
        simp only [bs16go, if_neg h1, if_neg h2, hsrc, hdst]
        obtain ⟨hprod, hlt⟩ := ih (s / 2) (2 * d) (by omega)
        refine ⟨?_, hlt⟩
        rw [hprod]
        obtain ⟨t, rfl⟩ : ∃ t, s = 2 * t := ⟨s / 2, by omega⟩
        have ht : 2 * t / 2 = t := by omega
        rw [ht]
        ring

theorem bs16go_prod2 : ∀ (fuel s d : Nat), d < 65536 →
    (bs16go 2 49152 fuel s d).1 * (bs16go 2 49152 fuel s d).2.1
      = s * d * 2 ^ (bs16go 2 49152 fuel s d).2.2 ∧
    (bs16go 2 49152 fuel s d).2.1 < 65536 := by
  intro fuel
  induction fuel with
  | zero => exact fun s d hd => ⟨by simp [bs16go], hd⟩
  | succ fuel ih =>
    intro s d hd
    by_cases h1 : s &&& 0x1 > 0
    · simp only [bs16go, if_pos h1]
      exact ⟨by simp, hd⟩
    · by_cases h2 : d &&& 49152 > 0
      · simp only [bs16go, if_neg h1, if_pos h2]
        exact ⟨by simp, hd⟩
      · have hs2 : s % 2 = 0 := by
          rw [← Nat.and_one_is_mod]
          omega
        have hdlt : d < 16384 := lt_of_and_49152_eq_zero hd (by omega)
        have hsrc : s >>> 1 = s / 2 := by
          rw [Nat.shiftRight_eq_div_pow, pow_one]
        have hdst : (d <<< 2) % 2 ^ 16 = 4 * d := by
          rw [Nat.shiftLeft_eq]
          have h4 : (2 : Nat) ^ 2 = 4 := by norm_num
          rw [h4]
          have : d * 4 < 2 ^ 16 := by norm_num; omega
          rw [Nat.mod_eq_of_lt this]
          omega
        simp only [bs16go, if_neg h1, if_neg h2, hsrc, hdst]
        obtain ⟨hprod, hlt⟩ := ih (s / 2) (4 * d) (by omega)
        refine ⟨?_, hlt⟩
        rw [hprod]
        obtain ⟨t, rfl⟩ : ∃ t, s = 2 * t := ⟨s / 2, by omega⟩
        have ht : 2 * t / 2 = t := by omega
        rw [ht, pow_succ]
        ring

theorem brightness_bitshifter16_prod (s d m st : Nat) (hd : d < 65536)
    (hst : st = 1 ∨ st = 2) :
    (brightness_bitshifter16 s d m st).1 * (brightness_bitshifter16 s d m st).2.1
      = s * d * 2 ^ ((brightness_bitshifter16 s d m st).2.2 * (st - 1)) := by
  unfold brightness_bitshifter16
  by_cases hz : d = 0 ∨ s = 0
  · simp only [if_pos hz]
    rcases hz with hz | hz <;> subst hz <;> simp
  · simp only [if_neg hz]
    rcases hst with hst | hst <;> subst hst
    · have hm : maskIter (1 - 1) 0b1000000000000000 = 32768 := rfl
      rw [hm]
      simpa using (bs16go_prod1 m s d hd).1
    · have hm : maskIter (2 - 1) 0b1000000000000000 = 49152 := rfl
      rw [hm]
      simpa using (bs16go_prod2 m s d hd).1

theorem bs8go_fst_le : ∀ (fuel s d : Nat), (bs8go fuel s d).1 ≤ s := by
  intro fuel
  induction fuel with
  | zero => intro s d; exact Nat.le_refl s
  | succ fuel ih =>
    intro s d
    by_cases h1 : s > 1
    · by_cases h2 : d &&& 0b10000000 > 0
      · simp [bs8go, if_pos h1, if_pos h2]
      · simp only [bs8go, if_pos h1, if_neg h2]
        calc (bs8go fuel (s >>> 1) ((d <<< 1) % 2 ^ 8)).1 ≤ s >>> 1 := ih _ _
        _ ≤ s := by
          rw [Nat.shiftRight_eq_div_pow, pow_one]
          omega
    · simp [bs8go, if_neg h1]

theorem bs16go_fst_le : ∀ (steps mask fuel s d : Nat), (bs16go steps mask fuel s d).1 ≤ s := by
  intro steps mask fuel
  induction fuel with
  | zero => intro s d; exact Nat.le_refl s
  | succ fuel ih =>
    intro s d
    by_cases h1 : s &&& 0x1 > 0
    · simp only [bs16go, if_pos h1]
      exact Nat.le_refl s
    · by_cases h2 : d &&& mask > 0
      · simp only [bs16go, if_neg h1, if_pos h2]
        exact Nat.le_refl s
      · simp only [bs16go, if_neg h1, if_neg h2]
        calc (bs16go steps mask fuel (s >>> 1) ((d <<< steps) % 2 ^ 16)).1 ≤ s >>> 1 := ih _ _
        _ ≤ s := by
          rw [Nat.shiftRight_eq_div_pow, pow_one]
          omega

theorem brightness_bitshifter8_fst_le (s d m : Nat) :
    (brightness_bitshifter8 s d m).1 ≤ s := by
  unfold brightness_bitshifter8
  by_cases hz : d = 0 ∨ s = 0
  · simp [if_pos hz]
  · simp only [if_neg hz]
    exact bs8go_fst_le m s d

theorem brightness_bitshifter16_fst_le (s d m st : Nat) :
    (brightness_bitshifter16 s d m st).1 ≤ s := by
  unfold brightness_bitshifter16
  by_cases hz : d = 0 ∨ s = 0
  · simp [if_pos hz]
  · simp only [if_neg hz]
    exact bs16go_fst_le st _ m s d

theorem or_pred_le_31_of_le_16 {v : Nat} (hv : v ≤ 16) :
    (if v > 1 then v ||| (v - 1) else v) ≤ 31 := by
  interval_cases v <;> decide

theorem five_bit_bitshift_brightness_le (c : RGB16) (b : Nat) :
    (five_bit_bitshift c b).brightness ≤ 31 := by
  unfold five_bit_bitshift
  by_cases hb : b = 0
  · simp [if_pos hb]
  · simp only [if_neg hb]
    by_cases hblack : c.r = 0 ∧ c.g = 0 ∧ c.b = 0
    · simp only [if_pos hblack]
      split <;> omega
    · simp only [if_neg hblack]
      have h8 : (brightness_bitshifter8 0b00010000 b 4).1 ≤ 16 :=
        brightness_bitshifter8_fst_le 0b00010000 b 4
      have h16 : (brightness_bitshifter16 (brightness_bitshifter8 0b00010000 b 4).1
          (max (max c.r c.g) c.b) 4 2).1 ≤ (brightness_bitshifter8 0b00010000 b 4).1 :=
        brightness_bitshifter16_fst_le _ _ 4 2
      exact or_pred_le_31_of_le_16 (Nat.le_trans h16 h8)

theorem five_bit_hd_gamma_bitshift_brightness_le (c : RGB8) (b : Nat)
    (cc : Option RGB8) : (five_bit_hd_gamma_bitshift c b cc).brightness ≤ 31 := by
  unfold five_bit_hd_gamma_bitshift
  by_cases hb : b = 0
  · simp [if_pos hb]
  · simp only [if_neg hb]
    split <;> exact five_bit_bitshift_brightness_le _ _

theorem asyncPixelChunk_eq_libPixelChunk (o : PixelOrder) (p : Apa102Pixel) :
    asyncPixelChunk o p = libPixelChunk o p := by
  cases o <;> rfl

theorem asyncWritePixels_eq_libWritePixels {ε : Type} (o : PixelOrder)
    (ps : List Apa102Pixel) (s : SpiState ε) :
    asyncWritePixels o ps s = libWritePixels o ps s := by
  induction ps generalizing s with
  | nil => rfl
  | cons p ps ih =>
    simp only [asyncWritePixels, libWritePixels, asyncPixelChunk_eq_libPixelChunk]
    rcases h : spiWrite (libPixelChunk o p) s with ⟨r, s1⟩
    cases r <;> simp [h, ih]

theorem asyncWriteEndFrame_eq_libWriteEndFrame {ε : Type} (inv : Bool) (n : Nat)
    (s : SpiState ε) : asyncWriteEndFrame inv n s = libWriteEndFrame inv n s := by
  induction n generalizing s with
  | zero => rfl
  | succ n ih =>
    simp only [asyncWriteEndFrame, libWriteEndFrame]
    rcases h : spiWrite (match inv with | false => [0xFF] | true => [0x00]) s with ⟨r, s1⟩
    cases r <;> simp [h, ih]

theorem writerPixelChunk_length (o : PixelOrder) (p : Apa102Pixel) :
    (writerPixelChunk o p).length = 4 := by
  cases o <;> rfl

theorem sum_len_writerPixelChunks (o : PixelOrder) : ∀ (ps : List Apa102Pixel),
    ((ps.map (writerPixelChunk o)).map List.length).sum = 4 * ps.length := by
  intro ps
  induction ps with
  | nil => rfl
  | cons p ps ih =>
    simp only [List.map_cons, List.sum_cons, writerPixelChunk_length, ih,
      List.length_cons]
    ring

/-- C6: encode_perceptual8 (five_bit_hd_gamma_bitshift) on the color
(255, 127, 43) at brightness 255 with no color correction returns exactly
the pixel with red 255, green 42, blue 3, brightness 31. -/
theorem c6_perceptual_encode_example :
    five_bit_hd_gamma_bitshift ⟨255, 127, 43⟩ 255 none = ⟨255, 42, 3, 31⟩ := by
  decide

/-- C3: for every RGB16 input color and every brightness, the brightness
field returned by five_bit_bitshift is at most 31, and likewise for every
output of five_bit_hd_gamma_bitshift. -/
theorem c3_brightness_always_five_bits :
    (∀ (c : RGB16) (b : Nat), (five_bit_bitshift c b).brightness ≤ 31) ∧
    (∀ (c : RGB8) (b : Nat) (cc : Option RGB8),
      (five_bit_hd_gamma_bitshift c b cc).brightness ≤ 31) :=
  ⟨five_bit_bitshift_brightness_le, five_bit_hd_gamma_bitshift_brightness_le⟩

/-- C7: degenerate inputs of five_bit_bitshift: zero brightness gives the
all-zero pixel for every color, and nonzero brightness on an all-black color
gives zero channels with hardware brightness min(brightness, 31). -/
theorem c7_linear16_degenerate (c : RGB16) (b : Nat) :
    (b = 0 → five_bit_bitshift c b = ⟨0, 0, 0, 0⟩) ∧
    (b ≠ 0 → c.r = 0 → c.g = 0 → c.b = 0 →
      five_bit_bitshift c b = ⟨0, 0, 0, min b 31⟩) := by
  constructor
  · intro hb
    subst hb
    rfl
  · intro hb hr hg hbl
    unfold five_bit_bitshift
    rw [if_neg hb, if_pos ⟨hr, hg, hbl⟩]
    have hmin : min b 31 = if b ≤ 31 then b else 31 := by
      rw [Nat.min_def]
    rw [hmin]

/-- Witness for c7_linear16_degenerate at concrete inputs. -/
theorem c7_linear16_degenerate_witness :
    five_bit_bitshift ⟨5, 6, 7⟩ 0 = ⟨0, 0, 0, 0⟩ ∧
    five_bit_bitshift ⟨0, 0, 0⟩ 200 = ⟨0, 0, 0, min 200 31⟩ :=
  ⟨(c7_linear16_degenerate ⟨5, 6, 7⟩ 0).1 rfl,
   (c7_linear16_degenerate ⟨0, 0, 0⟩ 200).2 (by decide) rfl rfl rfl⟩

/-- C9: contract of scale16by8: scaling by 0 gives 0 for every input; full
scale preserves 0xFFFF exactly; right-shifted full-scale pairs scale to the
combined shift for shift budgets up to 7; and the 32-bit intermediate
product cannot overflow for 16-bit by 8-bit inputs. -/
theorem c9_scale16by8_contract :
    (∀ x : Nat, scale16by8 x 0 = 0) ∧
    scale16by8 0xFFFF 0xFF = 0xFFFF ∧
    (∀ i j : Nat, i + j ≤ 7 →
      scale16by8 (0xFFFF >>> i) (0xFF >>> j) = 0xFFFF >>> (i + j)) ∧
    (∀ x sc : Nat, x < 2 ^ 16 → sc < 2 ^ 8 → x * (1 + sc) < 2 ^ 32) := by
  refine ⟨fun x => by simp [scale16by8], by decide, ?_, ?_⟩
  · intro i j hij
    have hi : i ≤ 7 := by omega
    have hj : j ≤ 7 := by omega
    interval_cases i <;> interval_cases j <;> first | omega | decide
  · intro x sc hx hsc
    have h1 : x * (1 + sc) ≤ 65535 * 256 := Nat.mul_le_mul (by omega) (by omega)
    omega

/-- Witness for c9_scale16by8_contract at concrete inputs. -/
theorem c9_scale16by8_contract_witness :
    scale16by8 12345 0 = 0 ∧
    scale16by8 (0xFFFF >>> 2) (0xFF >>> 3) = 0xFFFF >>> 5 ∧
    1000 * (1 + 200) < 2 ^ 32 :=
  ⟨c9_scale16by8_contract.1 12345,
   c9_scale16by8_contract.2.2.1 2 3 (by decide),
   c9_scale16by8_contract.2.2.2 1000 200 (by decide) (by decide)⟩

/-- C2 counterexample: brightness_bitshifter16 with steps = 2 on src = 2,
dst = 4, max_shifts = 8 (the inputs of the crate's own steps2 test) does not
preserve the product src * dst: it turns 2 * 4 = 8 into 1 * 16 = 16. -/
theorem c2_product_counterexample :
    ¬ ((brightness_bitshifter16 2 4 8 2).1 * (brightness_bitshifter16 2 4 8 2).2.1
        = 2 * 4) := by
  decide

/-- C2 amended: the 8-bit bitshifter preserves src * dst exactly for its
valid power-of-two src inputs, for any dst byte and any max_shifts; the
16-bit bitshifter instead multiplies src * dst by 2 ^ (shifts * (steps - 1)),
so the product is preserved exactly for steps = 1 and doubled per shift for
steps = 2. -/
theorem c2_product_invariants :
    (∀ k d m : Nat, d < 256 →
      (brightness_bitshifter8 (2 ^ k) d m).1 * (brightness_bitshifter8 (2 ^ k) d m).2.1
        = 2 ^ k * d) ∧
    (∀ s d m st : Nat, d < 65536 → st = 1 ∨ st = 2 →
      (brightness_bitshifter16 s d m st).1 * (brightness_bitshifter16 s d m st).2.1
        = s * d * 2 ^ ((brightness_bitshifter16 s d m st).2.2 * (st - 1))) :=
  ⟨fun k d m hd => brightness_bitshifter8_pow2_prod k d m hd,
   fun s d m st hd hst => brightness_bitshifter16_prod s d m st hd hst⟩

/-- Witness for c2_product_invariants at concrete inputs. -/
theorem c2_product_invariants_witness :
    (brightness_bitshifter8 (2 ^ 4) 42 4).1 * (brightness_bitshifter8 (2 ^ 4) 42 4).2.1
      = 2 ^ 4 * 42 ∧
    (brightness_bitshifter16 2 4 8 2).1 * (brightness_bitshifter16 2 4 8 2).2.1
      = 2 * 4 * 2 ^ ((brightness_bitshifter16 2 4 8 2).2.2 * (2 - 1)) :=
  ⟨c2_product_invariants.1 4 42 4 (by decide),
   c2_product_invariants.2 2 4 8 2 (by decide) (Or.inr rfl)⟩

/-- C10: for every configuration (end frame length, polarity flag, pixel
order), every pixel sequence and every transport state, the asynchronous
writer of asynch.rs issues exactly the same sequence of transport write
calls as the blocking writer of lib.rs and returns the same result. -/
theorem c10_async_blocking_equivalent {ε : Type} (cfg : Apa102)
    (ps : List Apa102Pixel) (s : SpiState ε) :
    apa102AsyncWrite ⟨cfg.end_frame_length, cfg.invert_end_frame, cfg.pixel_order⟩ ps s
      = apa102Write cfg ps s := by
  unfold apa102AsyncWrite apa102Write
  simp only [asyncWritePixels_eq_libWritePixels, asyncWriteEndFrame_eq_libWriteEndFrame]

/-- C8: for every pixel sequence and every transport behavior: if every
write call succeeds, the lib.rs writer returns Ok after issuing exactly the
planned chunk sequence; if the k-th call is the first to fail with error e,
it returns that error unmodified and issues no transport calls after the
k-th. -/
theorem c8_error_propagation {ε : Type} (cfg : Apa102) (ps : List Apa102Pixel)
    (orc : Nat → Option ε) :
    ((∀ i, i < (libPlannedChunks cfg ps).length → orc i = none) →
      apa102Write cfg ps ⟨orc, []⟩
        = (Except.ok (), ⟨orc, libPlannedChunks cfg ps⟩)) ∧
    (∀ k e, k < (libPlannedChunks cfg ps).length → (∀ i, i < k → orc i = none) →
      orc k = some e →
      apa102Write cfg ps ⟨orc, []⟩
        = (Except.error e, ⟨orc, (libPlannedChunks cfg ps).take (k + 1)⟩)) := by
  constructor
  · intro h
    rw [apa102Write_eq_runChunks]
    have hr := runChunks_ok (libPlannedChunks cfg ps) ⟨orc, []⟩ (by
      intro i hi
      simpa using h i hi)
    simpa using hr
  · intro k e hk hpre hke
    rw [apa102Write_eq_runChunks]
    have hr := runChunks_error (libPlannedChunks cfg ps) ⟨orc, []⟩ k e hk (by
      intro i hi
      simpa using hpre i hi) (by simpa using hke)
    simpa using hr

/-- Witness for c8_error_propagation: an always-succeeding transport and one
failing at its second call, on a one-pixel write. -/
theorem c8_error_propagation_witness :
    (apa102Write ⟨4, true, PixelOrder.BGR⟩ [⟨1, 2, 3, 4⟩]
        (⟨fun _ => none, []⟩ : SpiState Unit)
      = (Except.ok (), ⟨fun _ => none,
          libPlannedChunks ⟨4, true, PixelOrder.BGR⟩ [⟨1, 2, 3, 4⟩]⟩)) ∧
    (apa102Write ⟨4, true, PixelOrder.BGR⟩ [⟨1, 2, 3, 4⟩]
        (⟨fun i => if i = 1 then some () else none, []⟩ : SpiState Unit)
      = (Except.error (), ⟨fun i => if i = 1 then some () else none,
          (libPlannedChunks ⟨4, true, PixelOrder.BGR⟩ [⟨1, 2, 3, 4⟩]).take 2⟩)) :=
  ⟨(c8_error_propagation _ _ _).1 (fun i _ => rfl),
   (c8_error_propagation _ _ _).2 1 () (by decide)
     (fun i hi => by interval_cases i; rfl) rfl⟩

/-- C5 counterexample: with the inverted-polarity flag set (one end-frame
byte, no pixels) the lib.rs writer emits the end-frame byte 0x00, not 0xFF
as the claim states. -/
theorem c5_polarity_counterexample :
    ¬ ((apa102Write ⟨1, true, PixelOrder.BGR⟩ [] allOk).2.calls.getD 1 []
        = [0xFF]) := by
  decide

/-- C5 amended: under the fixed-length policy the lib.rs writer emits, after
the start frame and the pixel frames, exactly end_frame_length single-byte
writes, each 0x00 when invert_end_frame is set and 0xFF when it is not,
independent of the pixel count. -/
theorem c5_end_frame_fixed_length (cfg : Apa102) (ps : List Apa102Pixel) :
    (apa102Write cfg ps allOk).2.calls.length
        = 1 + ps.length + cfg.end_frame_length ∧
    (apa102Write cfg ps allOk).2.calls.drop (1 + ps.length)
      = List.replicate cfg.end_frame_length
          (match cfg.invert_end_frame with | false => [0xFF] | true => [0x00]) := by
  have hcalls : (apa102Write cfg ps allOk).2.calls = libPlannedChunks cfg ps := by
    rw [apa102Write_eq_runChunks, runChunks_ok _ _ (fun i _ => rfl)]
    rfl
  constructor
  · rw [hcalls]
    simp only [libPlannedChunks, List.length_cons, List.length_append,
      List.length_map, List.length_replicate]
    omega
  · rw [hcalls]
    simp only [libPlannedChunks]
    have h1 : 1 + ps.length = ps.length + 1 := by omega
    rw [h1, List.drop_succ_cons]
    have h2 : ps.length = (ps.map (libPixelChunk cfg.pixel_order)).length := by
      simp
    rw [h2, List.drop_left]

/-- C1 counterexample: writing 17 pixels through the writer.rs
length-derived writer passes 78 bytes to the transport, not 74. -/
theorem c1_total_bytes_counterexample :
    ¬ ((((apa102WriterWrite ⟨true, PixelOrder.BGR⟩
          (List.replicate 17 (⟨0, 0, 0, 0⟩ : Apa102Pixel)) allOk).2.calls).map
            List.length).sum = 74) := by
  decide

/-- C1 amended: for every 17-pixel sequence, the writer.rs length-derived
writer emits, in order, a 4-byte all-zero start frame, 17 pixel frames of 4
bytes each, one extra 4-byte all-zero reset frame, and ceil(17/16) = 2
single end-frame bytes, for a total of 78 bytes across all write calls. -/
theorem c1_seventeen_pixels_layout (cfg : Apa102Writer) (ps : List Apa102Pixel)
    (h17 : ps.length = 17) :
    (apa102WriterWrite cfg ps allOk).1 = Except.ok () ∧
    (apa102WriterWrite cfg ps allOk).2.calls
      = [0x00, 0x00, 0x00, 0x00] :: (ps.map (writerPixelChunk cfg.pixel_order)
          ++ [0x00, 0x00, 0x00, 0x00]
          :: List.replicate 2
              (match cfg.invert_end_frame with | false => [0xFF] | true => [0x00])) ∧
    (((apa102WriterWrite cfg ps allOk).2.calls).map List.length).sum = 78 := by
  have hrun : apa102WriterWrite cfg ps allOk
      = (Except.ok (), ⟨fun _ => none, writerPlannedChunks cfg ps⟩) := by
    rw [apa102WriterWrite_eq_runChunks, runChunks_ok _ _ (fun i _ => rfl)]
    rfl
  refine ⟨by rw [hrun], ?_, ?_⟩
  · rw [hrun]
    simp only [writerPlannedChunks, h17]
  · rw [hrun]
    simp only [writerPlannedChunks]
    rw [List.map_cons, List.sum_cons, List.map_append, List.sum_append,
      List.map_cons, List.sum_cons, sum_len_writerPixelChunks]
    have hend : ((List.replicate ((ps.length + 16 - 1) / 16)
        (match cfg.invert_end_frame with
         | false => [0xFF] | true => [0x00])).map List.length).sum
          = (ps.length + 16 - 1) / 16 := by
      cases cfg.invert_end_frame <;>
        simp [List.map_replicate, List.sum_replicate]
    rw [hend, h17]
    decide

/-- Witness for c1_seventeen_pixels_layout on a concrete 17-pixel strip. -/
theorem c1_seventeen_pixels_layout_witness :
    (((apa102WriterWrite ⟨true, PixelOrder.BGR⟩
        (List.replicate 17 (⟨9, 8, 7, 6⟩ : Apa102Pixel)) allOk).2.calls).map
          List.length).sum = 78 :=
  (c1_seventeen_pixels_layout _ _ (by decide)).2.2

/-- C4: each pixel frame the lib.rs writer emits is exactly 4 bytes: the
byte 0b11100000 or-ed with the pixel's brightness, then the three color
channel bytes in exactly the sequence named by the configured order, which
is a permutation of red, green, blue. -/
theorem c4_channel_order (cfg : Apa102) (ps : List Apa102Pixel) (i : Nat)
    (hi : i < ps.length) :
    (apa102Write cfg ps allOk).2.calls.getD (1 + i) []
      = (0b11100000 ||| (ps.getD i ⟨0, 0, 0, 0⟩).brightness)
          :: channelBytesNamed cfg.pixel_order (ps.getD i ⟨0, 0, 0, 0⟩) ∧
    ((apa102Write cfg ps allOk).2.calls.getD (1 + i) []).length = 4 ∧
    ((apa102Write cfg ps allOk).2.calls.getD (1 + i) []).tail.Perm
      [(ps.getD i ⟨0, 0, 0, 0⟩).red, (ps.getD i ⟨0, 0, 0, 0⟩).green,
       (ps.getD i ⟨0, 0, 0, 0⟩).blue] := by
  have hcalls : (apa102Write cfg ps allOk).2.calls = libPlannedChunks cfg ps := by
    rw [apa102Write_eq_runChunks, runChunks_ok _ _ (fun i _ => rfl)]
    rfl
  have hmaplen : i < (ps.map (libPixelChunk cfg.pixel_order)).length := by
    simpa using hi
  have hchunk : (libPlannedChunks cfg ps).getD (1 + i) []
      = libPixelChunk cfg.pixel_order (ps.getD i ⟨0, 0, 0, 0⟩) := by
    simp only [libPlannedChunks]
    have h1 : 1 + i = i + 1 := by omega
    rw [h1, List.getD_cons_succ]
    rw [List.getD_append _ _ _ _ hmaplen]
    rw [List.getD_eq_getElem _ _ hmaplen, List.getElem_map,
      ← List.getD_eq_getElem ps ⟨0, 0, 0, 0⟩ hi]
  rw [hcalls, hchunk]
  cases hp : ps.getD i ⟨0, 0, 0, 0⟩ with
  | mk r g b br =>
    cases cfg.pixel_order with
    | RGB => exact ⟨rfl, rfl, List.Perm.refl _⟩
    | RBG => exact ⟨rfl, rfl, List.Perm.cons r (List.Perm.swap g b [])⟩
    | GRB => exact ⟨rfl, rfl, List.Perm.swap r g [b]⟩
    | GBR =>
      exact ⟨rfl, rfl,
        (List.Perm.cons g (List.Perm.swap r b [])).trans (List.Perm.swap r g [b])⟩
    | BRG =>
      exact ⟨rfl, rfl,
        (List.Perm.swap r b [g]).trans (List.Perm.cons r (List.Perm.swap g b []))⟩
    | BGR =>
      exact ⟨rfl, rfl,
        (List.Perm.cons b (List.Perm.swap r g [])).trans
          ((List.Perm.swap r b [g]).trans (List.Perm.cons r (List.Perm.swap g b [])))⟩

/-- Witness for c4_channel_order: one pixel under BGR order. -/
theorem c4_channel_order_witness :
    (apa102Write ⟨4, true, PixelOrder.BGR⟩ [⟨1, 2, 3, 4⟩] allOk).2.calls.getD 1 []
      = (0b11100000 ||| (4 : Nat))
          :: channelBytesNamed PixelOrder.BGR ⟨1, 2, 3, 4⟩ :=
  (c4_channel_order ⟨4, true, PixelOrder.BGR⟩ [⟨1, 2, 3, 4⟩] 0 (by decide)).1

end Apa102Spi
